import Mathlib

/-!
Shallow embedding of the local record store in `src/lib/storage.ts` of the
IdeaTracker repository.  The browser storage blob (`StorageData`) is made an
explicit state value; every store operation becomes a function from the state
(plus its original arguments, and an explicit `now` timestamp where the code
calls `new Date()`) to its return value paired with the successor state.
Timestamps are modelled as naturals compared the way the code compares
`created_at` values (via `Date.getTime`).
-/

namespace IdeaTracker

/-- `Problem.frequency` enum from `src/lib/types.ts`. -/
inductive Frequency
  | rare | weekly | daily
  deriving DecidableEq

/-- `Problem.status` enum from `src/lib/types.ts`. -/
inductive PStatus
  | open | solved | ignored
  deriving DecidableEq

/-- `Idea.status` enum from `src/lib/types.ts`. -/
inductive IStatus
  | new | researching | validating | building | parked
  deriving DecidableEq

/-- `Note.note_type` enum from `src/lib/types.ts`. -/
inductive NoteType
  | interview | competitor | pricing | tech | general
  deriving DecidableEq

/-- The `Problem` record of `src/lib/types.ts`. -/
structure Problem where
  id : Nat
  title : String
  description : String
  observed_context : String
  severity : Int
  frequency : Frequency
  status : PStatus
  tags : String
  created_at : Nat
  updated_at : Nat
  deriving DecidableEq

/-- The `Idea` record of `src/lib/types.ts`. -/
structure Idea where
  id : Nat
  title : String
  pitch : String
  target_user : String
  value_prop : String
  differentiation : String
  assumptions : String
  risks : String
  status : IStatus
  score : Option Int
  tags : String
  created_at : Nat
  updated_at : Nat
  deriving DecidableEq

/-- The `Note` record of `src/lib/types.ts`. -/
structure Note where
  id : Nat
  note_type : NoteType
  content : String
  links : String
  problem_id : Option Nat
  idea_id : Option Nat
  created_at : Nat
  deriving DecidableEq

/-- The `ProblemIdeaLink` join record of `src/lib/types.ts`. -/
structure ProblemIdeaLink where
  id : Nat
  problem_id : Nat
  idea_id : Nat
  deriving DecidableEq

/-- The `counters` record of `StorageData`. -/
structure Counters where
  problems : Nat
  ideas : Nat
  notes : Nat
  links : Nat
  deriving DecidableEq

/-- The whole persisted document (`StorageData` in `src/lib/types.ts`). -/
structure StorageData where
  problems : List Problem
  ideas : List Idea
  notes : List Note
  links : List ProblemIdeaLink
  counters : Counters
  deriving DecidableEq

/-- The empty document created on first access (`getStorageData`) and by
`clearAllData`. -/
def emptyData : StorageData :=
  { problems := [], ideas := [], notes := [], links := [],
    counters := { problems := 0, ideas := 0, notes := 0, links := 0 } }

/-- The key argument of `getNextId` (`keyof StorageData.counters`). -/
inductive CounterKey
  | problems | ideas | notes | links
  deriving DecidableEq

/-- Read one counter field. -/
def counterGet (c : Counters) : CounterKey → Nat
  | .problems => c.problems
  | .ideas => c.ideas
  | .notes => c.notes
  | .links => c.links

/-- Write one counter field. -/
def counterSet (c : Counters) : CounterKey → Nat → Counters
  | .problems, n => { c with problems := n }
  | .ideas, n => { c with ideas := n }
  | .notes, n => { c with notes := n }
  | .links, n => { c with links := n }

/-- `getNextId(data, type)`: increments the named counter and returns its new
value. -/
def getNextId (c : Counters) (k : CounterKey) : Nat × Counters :=
  let n := counterGet c k + 1
  (n, counterSet c k n)

/-- Replace the first element satisfying `f` by its image under `g`
(the `findIndex` / assign-at-index idiom of the update operations);
`none` when no element matches. -/
def replaceFirst (f : α → Bool) (g : α → α) : List α → Option (List α)
  | [] => none
  | x :: xs =>
      if f x then some (g x :: xs)
      else (replaceFirst f g xs).map (fun ys => x :: ys)

/-- Listing comparator: `(a, b) => b.created_at - a.created_at`, i.e. `a` may
come before `b` when the key of `b` is not larger. -/
def byKeyDesc (key : α → Nat) (a b : α) : Prop := key b ≤ key a

instance (key : α → Nat) : DecidableRel (byKeyDesc key) :=
  fun a b => Nat.decLe (key b) (key a)

instance (key : α → Nat) : IsTotal α (byKeyDesc key) :=
  ⟨fun a b => Nat.le_total (key b) (key a)⟩

instance (key : α → Nat) : IsTrans α (byKeyDesc key) :=
  ⟨fun _ _ _ hab hbc => Nat.le_trans hbc hab⟩

/-- `createProblem`: mints an id, appends the record, returns the id. -/
def createProblem (s : StorageData) (now : Nat) (title : String)
    (description : String := "") (observed_context : String := "")
    (severity : Int := 3) (frequency : Frequency := .weekly)
    (status : PStatus := .open) (tags : String := "") : Nat × StorageData :=
  let (id, counters) := getNextId s.counters .problems
  let problem : Problem :=
    { id, title, description, observed_context, severity, frequency, status,
      tags, created_at := now, updated_at := now }
  (id, { s with counters, problems := s.problems ++ [problem] })

/-- `getAllProblems`: all problems sorted by `created_at` descending (stable
sort, as `Array.prototype.sort` with the comparator above). -/
def getAllProblems (s : StorageData) : List Problem :=
  List.insertionSort (byKeyDesc Problem.created_at) s.problems

/-- `getProblemById`: first problem with the id, else null. -/
def getProblemById (s : StorageData) (id : Nat) : Option Problem :=
  s.problems.find? (fun p => p.id == id)

/-- `updateProblem`: replaces all mutable fields of the first record with the
id, refreshing `updated_at`; false when the id is absent. -/
def updateProblem (s : StorageData) (now : Nat) (id : Nat) (title : String)
    (description : String) (observed_context : String) (severity : Int)
    (frequency : Frequency) (status : PStatus) (tags : String) :
    Bool × StorageData :=
  match replaceFirst (fun p => p.id == id)
      (fun p => { p with title, description, observed_context, severity,
                         frequency, status, tags, updated_at := now })
      s.problems with
  | none => (false, s)
  | some ps => (true, { s with problems := ps })

/-- `deleteProblem`: removes the problem, cascades link deletion, nullifies
note references; false when the id is absent. -/
def deleteProblem (s : StorageData) (id : Nat) : Bool × StorageData :=
  let problems := s.problems.filter (fun p => p.id != id)
  if problems.length < s.problems.length then
    (true, { s with problems,
                    links := s.links.filter (fun l => l.problem_id != id),
                    notes := s.notes.map (fun n =>
                      if n.problem_id == some id then { n with problem_id := none }
                      else n) })
  else (false, s)

/-- `createIdea`. -/
def createIdea (s : StorageData) (now : Nat) (title : String)
    (pitch : String := "") (target_user : String := "")
    (value_prop : String := "") (differentiation : String := "")
    (assumptions : String := "") (risks : String := "")
    (status : IStatus := .new) (score : Option Int := none)
    (tags : String := "") : Nat × StorageData :=
  let (id, counters) := getNextId s.counters .ideas
  let idea : Idea :=
    { id, title, pitch, target_user, value_prop, differentiation, assumptions,
      risks, status, score, tags, created_at := now, updated_at := now }
  (id, { s with counters, ideas := s.ideas ++ [idea] })

/-- `getAllIdeas`. -/
def getAllIdeas (s : StorageData) : List Idea :=
  List.insertionSort (byKeyDesc Idea.created_at) s.ideas

/-- `getIdeaById`. -/
def getIdeaById (s : StorageData) (id : Nat) : Option Idea :=
  s.ideas.find? (fun i => i.id == id)

/-- `updateIdea`. -/
def updateIdea (s : StorageData) (now : Nat) (id : Nat) (title : String)
    (pitch : String) (target_user : String) (value_prop : String)
    (differentiation : String) (assumptions : String) (risks : String)
    (status : IStatus) (score : Option Int) (tags : String) :
    Bool × StorageData :=
  match replaceFirst (fun i => i.id == id)
      (fun i => { i with title, pitch, target_user, value_prop,
                         differentiation, assumptions, risks, status, score,
                         tags, updated_at := now })
      s.ideas with
  | none => (false, s)
  | some is => (true, { s with ideas := is })

/-- `deleteIdea`: removes the idea, cascades link deletion, nullifies note
references. -/
def deleteIdea (s : StorageData) (id : Nat) : Bool × StorageData :=
  let ideas := s.ideas.filter (fun i => i.id != id)
  if ideas.length < s.ideas.length then
    (true, { s with ideas,
                    links := s.links.filter (fun l => l.idea_id != id),
                    notes := s.notes.map (fun n =>
                      if n.idea_id == some id then { n with idea_id := none }
                      else n) })
  else (false, s)

/-- `linkProblemToIdea`: duplicate-pair suppression, otherwise mint and
append. -/
def linkProblemToIdea (s : StorageData) (problem_id idea_id : Nat) :
    Bool × StorageData :=
  if s.links.any (fun l => l.problem_id == problem_id && l.idea_id == idea_id) then
    (false, s)
  else
    let (id, counters) := getNextId s.counters .links
    (true, { s with counters,
                    links := s.links ++ [{ id, problem_id, idea_id }] })

/-- `unlinkProblemFromIdea`. -/
def unlinkProblemFromIdea (s : StorageData) (problem_id idea_id : Nat) :
    Bool × StorageData :=
  let links := s.links.filter (fun l =>
    !(l.problem_id == problem_id && l.idea_id == idea_id))
  if links.length < s.links.length then
    (true, { s with links })
  else (false, s)

/-- `getIdeasForProblem`. -/
def getIdeasForProblem (s : StorageData) (problem_id : Nat) : List Idea :=
  let ideaIds := (s.links.filter (fun l => l.problem_id == problem_id)).map
    (fun l => l.idea_id)
  s.ideas.filter (fun i => ideaIds.contains i.id)

/-- `getProblemsForIdea`. -/
def getProblemsForIdea (s : StorageData) (idea_id : Nat) : List Problem :=
  let problemIds := (s.links.filter (fun l => l.idea_id == idea_id)).map
    (fun l => l.problem_id)
  s.problems.filter (fun p => problemIds.contains p.id)

/-- Body of the `forEach` loop of `setProblemLinksForIdea`: mint a link id and
append a link for one problem id. -/
def addLinkStep (idea_id : Nat) (acc : StorageData) (problem_id : Nat) :
    StorageData :=
  let (id, counters) := getNextId acc.counters .links
  { acc with counters, links := acc.links ++ [{ id, problem_id, idea_id }] }

/-- `setProblemLinksForIdea`: full replace of the links of one idea. -/
def setProblemLinksForIdea (s : StorageData) (idea_id : Nat)
    (problem_ids : List Nat) : StorageData :=
  let s1 := { s with links := s.links.filter (fun l => l.idea_id != idea_id) }
  problem_ids.foldl (addLinkStep idea_id) s1

/-- `createNote`. -/
def createNote (s : StorageData) (now : Nat) (note_type : NoteType)
    (content : String) (links : String := "")
    (problem_id : Option Nat := none) (idea_id : Option Nat := none) :
    Nat × StorageData :=
  let (id, counters) := getNextId s.counters .notes
  let note : Note :=
    { id, note_type, content, links, problem_id, idea_id, created_at := now }
  (id, { s with counters, notes := s.notes ++ [note] })

/-- `getAllNotes`. -/
def getAllNotes (s : StorageData) : List Note :=
  List.insertionSort (byKeyDesc Note.created_at) s.notes

/-- `getNoteById`. -/
def getNoteById (s : StorageData) (id : Nat) : Option Note :=
  s.notes.find? (fun n => n.id == id)

/-- `updateNote`: full field replace, no `updated_at` field exists. -/
def updateNote (s : StorageData) (id : Nat) (note_type : NoteType)
    (content : String) (links : String) (problem_id : Option Nat)
    (idea_id : Option Nat) : Bool × StorageData :=
  match replaceFirst (fun n => n.id == id)
      (fun n => { n with note_type, content, links, problem_id, idea_id })
      s.notes with
  | none => (false, s)
  | some ns => (true, { s with notes := ns })

/-- `deleteNote`: no cascades. -/
def deleteNote (s : StorageData) (id : Nat) : Bool × StorageData :=
  let notes := s.notes.filter (fun n => n.id != id)
  if notes.length < s.notes.length then
    (true, { s with notes })
  else (false, s)

/-- `exportAllData`: the entire document. -/
def exportAllData (s : StorageData) : StorageData := s

/-- `importAllData`: trusting whole-document overwrite; the write mechanism is
modelled as always available, so the result is `true`. -/
def importAllData (_s : StorageData) (d : StorageData) : Bool × StorageData :=
  (true, d)

/-- `clearAllData`: reset to the empty document. -/
def clearAllData (_s : StorageData) : StorageData := emptyData

/-- One store mutation call, with all its arguments (the `now` argument stands
for the `new Date()` the code takes at call time). -/
inductive Op
  | createProblem (now : Nat) (title description observed_context : String)
      (severity : Int) (frequency : Frequency) (status : PStatus) (tags : String)
  | createIdea (now : Nat)
      (title pitch target_user value_prop differentiation assumptions risks : String)
      (status : IStatus) (score : Option Int) (tags : String)
  | createNote (now : Nat) (note_type : NoteType) (content links : String)
      (problem_id idea_id : Option Nat)
  | updateProblem (now : Nat) (id : Nat) (title description observed_context : String)
      (severity : Int) (frequency : Frequency) (status : PStatus) (tags : String)
  | updateIdea (now : Nat) (id : Nat)
      (title pitch target_user value_prop differentiation assumptions risks : String)
      (status : IStatus) (score : Option Int) (tags : String)
  | updateNote (id : Nat) (note_type : NoteType) (content links : String)
      (problem_id idea_id : Option Nat)
  | deleteProblem (id : Nat)
  | deleteIdea (id : Nat)
  | deleteNote (id : Nat)
  | linkProblemToIdea (problem_id idea_id : Nat)
  | unlinkProblemFromIdea (problem_id idea_id : Nat)
  | setProblemLinksForIdea (idea_id : Nat) (problem_ids : List Nat)
  | clearAllData
  | importAllData (d : StorageData)
  deriving DecidableEq

/-- The state after one mutation call (return values dropped). -/
def applyOp : Op → StorageData → StorageData
  | .createProblem now t d oc sev f st tg, s => (createProblem s now t d oc sev f st tg).2
  | .createIdea now t p tu v df a r st sc tg, s =>
      (createIdea s now t p tu v df a r st sc tg).2
  | .createNote now nt c lk p i, s => (createNote s now nt c lk p i).2
  | .updateProblem now id t d oc sev f st tg, s =>
      (updateProblem s now id t d oc sev f st tg).2
  | .updateIdea now id t p tu v df a r st sc tg, s =>
      (updateIdea s now id t p tu v df a r st sc tg).2
  | .updateNote id nt c lk p i, s => (updateNote s id nt c lk p i).2
  | .deleteProblem id, s => (deleteProblem s id).2
  | .deleteIdea id, s => (deleteIdea s id).2
  | .deleteNote id, s => (deleteNote s id).2
  | .linkProblemToIdea p i, s => (linkProblemToIdea s p i).2
  | .unlinkProblemFromIdea p i, s => (unlinkProblemFromIdea s p i).2
  | .setProblemLinksForIdea i ps, s => setProblemLinksForIdea s i ps
  | .clearAllData, s => clearAllData s
  | .importAllData d, s => (importAllData s d).2

/-- Whether the call is `clearAllData` or `importAllData` (the two operations
allowed to lower counters). -/
def isClearOrImport : Op → Bool
  | .clearAllData => true
  | .importAllData _ => true
  | _ => false

/-- The ids minted by the `getNextId` calls the `forEach` loop of
`setProblemLinksForIdea` performs, one per listed problem id. -/
def setLinksMintedIds (c : Counters) : List Nat → List Nat
  | [] => []
  | _ :: ps =>
      let (id, c1) := getNextId c .links
      id :: setLinksMintedIds c1 ps

/-- The ids the operation mints for collection `k` when run in state `s`:
the id returned by a create call, and the ids `getNextId` hands out for new
link records. -/
def mintedIds (k : CounterKey) (op : Op) (s : StorageData) : List Nat :=
  match k, op with
  | .problems, .createProblem now t d oc sev f st tg =>
      [(createProblem s now t d oc sev f st tg).1]
  | .ideas, .createIdea now t p tu v df a r st sc tg =>
      [(createIdea s now t p tu v df a r st sc tg).1]
  | .notes, .createNote now nt c lk p i => [(createNote s now nt c lk p i).1]
  | .links, .linkProblemToIdea p i =>
      if (linkProblemToIdea s p i).1 then [(getNextId s.counters .links).1] else []
  | .links, .setProblemLinksForIdea _ ps => setLinksMintedIds s.counters ps
  | _, _ => []

/-- All ids minted for collection `k` along a run of the given calls. -/
def createdIds (k : CounterKey) : List Op → StorageData → List Nat
  | [], _ => []
  | op :: ops, s => mintedIds k op s ++ createdIds k ops (applyOp op s)

/-- The (problem_id, idea_id) pairs of a link list. -/
def linkPairs (ls : List ProblemIdeaLink) : List (Nat × Nat) :=
  ls.map (fun l => (l.problem_id, l.idea_id))

/-- The documented link-table invariant: no duplicate (problem_id, idea_id)
pair exists. -/
def LinksNodupPairs (s : StorageData) : Prop := (linkPairs s.links).Nodup

instance (s : StorageData) : Decidable (LinksNodupPairs s) := by
  unfold LinksNodupPairs; infer_instance

/-- The link records the `forEach` loop of `setProblemLinksForIdea` appends:
one freshly minted id per listed problem id. -/
def newLinkRecords (c : Counters) (idea_id : Nat) :
    List Nat → List ProblemIdeaLink
  | [] => []
  | p :: ps =>
      let (id, c1) := getNextId c .links
      { id, problem_id := p, idea_id } :: newLinkRecords c1 idea_id ps

/-- Fixture: three problems created in order A, B, C at increasing times. -/
def demoABC : StorageData :=
  (createProblem
    (createProblem
      (createProblem emptyData 1 "A").2 2 "B").2 3 "C").2

/-- Fixture: a store built by the operations themselves, holding one problem,
two ideas, one note referencing the problem, and two links touching it. -/
def sampleState : StorageData :=
  (linkProblemToIdea
    (linkProblemToIdea
      (createNote
        (createIdea
          (createIdea
            (createProblem emptyData 1 "P").2
            2 "I1").2
          3 "I2").2
        4 .general "N" "" (some 1) none).2
      1 1).2
    1 2).2

/-- Fixture: a store whose link table holds two records with the same
(problem_id, idea_id) pair. -/
def dupLinkState : StorageData :=
  { problems := [{ id := 1, title := "P", description := "",
                   observed_context := "", severity := 3, frequency := .weekly,
                   status := .open, tags := "", created_at := 1,
                   updated_at := 1 }],
    ideas := [{ id := 1, title := "I", pitch := "", target_user := "",
                value_prop := "", differentiation := "", assumptions := "",
                risks := "", status := .new, score := none, tags := "",
                created_at := 2, updated_at := 2 }],
    notes := [],
    links := [{ id := 1, problem_id := 1, idea_id := 1 },
              { id := 2, problem_id := 1, idea_id := 1 }],
    counters := { problems := 1, ideas := 1, notes := 0, links := 2 } }

/-- Fixture: a call sequence with creates, an intervening delete, and link
minting. -/
def demoOps : List Op :=
  [Op.createProblem 1 "A" "" "" 3 .weekly .open "",
   Op.deleteProblem 1,
   Op.createProblem 2 "B" "" "" 3 .weekly .open "",
   Op.linkProblemToIdea 1 1,
   Op.setProblemLinksForIdea 2 [1, 2]]

/-! ### Helper lemmas -/

theorem counterGet_counterSet (c : Counters) (k k1 : CounterKey) (n : Nat) :
    counterGet (counterSet c k1 n) k = if k = k1 then n else counterGet c k := by
  cases k <;> cases k1 <;> simp [counterGet, counterSet]

theorem foldl_addLinkStep (i : Nat) (ps : List Nat) :
    ∀ (acc : StorageData),
      ps.foldl (addLinkStep i) acc =
        { acc with
            counters := { acc.counters with
                            links := acc.counters.links + ps.length },
            links := acc.links ++ newLinkRecords acc.counters i ps } := by
  induction ps with
  | nil => intro acc; simp [newLinkRecords]
  | cons p ps ih =>
      intro acc
      rw [List.foldl_cons, ih]
      cases acc with
      | mk pr idl nts lks cs =>
          cases cs
          simp [addLinkStep, getNextId, counterGet, counterSet, newLinkRecords,
                List.append_assoc]
          omega

theorem setProblemLinksForIdea_eq (s : StorageData) (i : Nat)
    (ps : List Nat) :
    setProblemLinksForIdea s i ps =
      { s with
          counters := { s.counters with
                          links := s.counters.links + ps.length },
          links := s.links.filter (fun l => l.idea_id != i) ++
            newLinkRecords s.counters i ps } := by
  unfold setProblemLinksForIdea
  rw [foldl_addLinkStep]

theorem newLinkRecords_linkPairs (i : Nat) (ps : List Nat) :
    ∀ (c : Counters),
      linkPairs (newLinkRecords c i ps) = ps.map (fun p => (p, i)) := by
  induction ps with
  | nil => intro c; simp [newLinkRecords, linkPairs]
  | cons p ps ih =>
      intro c
      simp [newLinkRecords, getNextId, linkPairs] at ih ⊢
      exact ih _

theorem newLinkRecords_map_problem (i : Nat) (ps : List Nat) :
    ∀ (c : Counters),
      (newLinkRecords c i ps).map (fun l => l.problem_id) = ps := by
  induction ps with
  | nil => intro c; simp [newLinkRecords]
  | cons p ps ih =>
      intro c
      simp [newLinkRecords, getNextId]
      exact ih _

theorem newLinkRecords_length (i : Nat) (ps : List Nat) :
    ∀ (c : Counters), (newLinkRecords c i ps).length = ps.length := by
  induction ps with
  | nil => intro c; simp [newLinkRecords]
  | cons p ps ih =>
      intro c
      simp [newLinkRecords, getNextId]
      exact ih _

theorem mem_newLinkRecords (i : Nat) (ps : List Nat) :
    ∀ (c : Counters) (l : ProblemIdeaLink), l ∈ newLinkRecords c i ps →
      l.idea_id = i ∧ l.problem_id ∈ ps ∧
        c.links < l.id ∧ l.id ≤ c.links + ps.length := by
  induction ps with
  | nil => intro c l hl; simp [newLinkRecords] at hl
  | cons p ps ih =>
      intro c l hl
      simp [newLinkRecords, getNextId, counterGet, counterSet] at hl
      rcases hl with rfl | hl
      · refine ⟨rfl, by simp, by simp, by simp [List.length_cons]⟩
      · have h2 := ih _ l hl
        simp at h2
        simp only [List.length_cons]
        refine ⟨h2.1, by simp [h2.2.1], by omega, by omega⟩

theorem newLinkRecords_map_id (i : Nat) (ps : List Nat) :
    ∀ (c : Counters),
      (newLinkRecords c i ps).map (fun l => l.id) = setLinksMintedIds c ps := by
  induction ps with
  | nil => intro c; simp [newLinkRecords, setLinksMintedIds]
  | cons p ps ih =>
      intro c
      simp [newLinkRecords, setLinksMintedIds, getNextId]
      exact ih _

theorem setLinksMintedIds_mem (ps : List Nat) :
    ∀ (c : Counters) (n : Nat), n ∈ setLinksMintedIds c ps →
      c.links < n ∧ n ≤ c.links + ps.length := by
  induction ps with
  | nil => intro c n hn; simp [setLinksMintedIds] at hn
  | cons p ps ih =>
      intro c n hn
      simp [setLinksMintedIds, getNextId, counterGet, counterSet] at hn
      simp only [List.length_cons]
      rcases hn with rfl | hn
      · omega
      · have h2 := ih _ n hn
        simp at h2
        omega

theorem setLinksMintedIds_pairwise (ps : List Nat) :
    ∀ (c : Counters),
      (setLinksMintedIds c ps).Pairwise (fun a b => a < b) := by
  induction ps with
  | nil => intro c; simp [setLinksMintedIds]
  | cons p ps ih =>
      intro c
      simp [setLinksMintedIds, getNextId, counterGet, counterSet]
      refine ⟨?_, ih _⟩
      intro b hb
      have h2 := setLinksMintedIds_mem ps _ b hb
      simp at h2
      omega

theorem length_filter_lt {p : α → Bool} :
    ∀ (l : List α) (a : α), a ∈ l → p a = false →
      (l.filter p).length < l.length := by
  intro l
  induction l with
  | nil => intro a ha; simp at ha
  | cons x xs ih =>
      intro a ha hpa
      rcases List.mem_cons.mp ha with rfl | ha2
      · simp [List.filter_cons, hpa]
        exact Nat.lt_succ_of_le (List.length_filter_le p xs)
      · cases hpx : p x
        · simp [List.filter_cons, hpx]
          exact Nat.lt_succ_of_le (List.length_filter_le p xs)
        · simpa [List.filter_cons, hpx] using Nat.succ_lt_succ (ih a ha2 hpa)

theorem replaceFirst_eq_none {f : α → Bool} {g : α → α} :
    ∀ (l : List α), (∀ x ∈ l, f x = false) → replaceFirst f g l = none := by
  intro l
  induction l with
  | nil => intro h; simp [replaceFirst]
  | cons x xs ih =>
      intro h
      simp [replaceFirst, h x (by simp)]
      exact ih (fun y hy => h y (by simp [hy]))

theorem counterGet_counterSet_le (c : Counters) (k k1 : CounterKey) (n : Nat)
    (h : counterGet c k1 ≤ n) :
    counterGet c k ≤ counterGet (counterSet c k1 n) k := by
  rw [counterGet_counterSet]
  split
  · rename_i hk; subst hk; exact h
  · exact Nat.le_refl _

theorem applyOp_counters_mono (op : Op) (h : isClearOrImport op = false)
    (s : StorageData) (k : CounterKey) :
    counterGet s.counters k ≤ counterGet (applyOp op s).counters k := by
  cases op with
  | createProblem now t d oc sev f st tg =>
      exact counterGet_counterSet_le _ _ _ _ (Nat.le_succ _)
  | createIdea now t p tu v df a r st sc tg =>
      exact counterGet_counterSet_le _ _ _ _ (Nat.le_succ _)
  | createNote now nt c lk p i =>
      exact counterGet_counterSet_le _ _ _ _ (Nat.le_succ _)
  | updateProblem now id t d oc sev f st tg =>
      simp only [applyOp, updateProblem]
      split <;> exact Nat.le_refl _
  | updateIdea now id t p tu v df a r st sc tg =>
      simp only [applyOp, updateIdea]
      split <;> exact Nat.le_refl _
  | updateNote id nt c lk p i =>
      simp only [applyOp, updateNote]
      split <;> exact Nat.le_refl _
  | deleteProblem id =>
      simp only [applyOp, deleteProblem]
      split <;> exact Nat.le_refl _
  | deleteIdea id =>
      simp only [applyOp, deleteIdea]
      split <;> exact Nat.le_refl _
  | deleteNote id =>
      simp only [applyOp, deleteNote]
      split <;> exact Nat.le_refl _
  | linkProblemToIdea p i =>
      simp only [applyOp, linkProblemToIdea]
      split
      · exact Nat.le_refl _
      · exact counterGet_counterSet_le _ _ _ _ (Nat.le_succ _)
  | unlinkProblemFromIdea p i =>
      simp only [applyOp, unlinkProblemFromIdea]
      split <;> exact Nat.le_refl _
  | setProblemLinksForIdea i ps =>
      simp only [applyOp]
      rw [setProblemLinksForIdea_eq]
      cases k <;> simp [counterGet]
  | clearAllData => simp [isClearOrImport] at h
  | importAllData d => simp [isClearOrImport] at h

theorem mintedIds_bounds (k : CounterKey) (op : Op) (s : StorageData)
    (h : isClearOrImport op = false) :
    (mintedIds k op s).Pairwise (fun a b => a < b) ∧
    ∀ n ∈ mintedIds k op s,
      counterGet s.counters k < n ∧
        n ≤ counterGet (applyOp op s).counters k := by
  cases op with
  | createProblem now t d oc sev f st tg =>
      cases k <;>
        simp [mintedIds, createProblem, getNextId, applyOp,
              counterGet_counterSet, counterGet, counterSet]
  | createIdea now t p tu v df a r st sc tg =>
      cases k <;>
        simp [mintedIds, createIdea, getNextId, applyOp,
              counterGet_counterSet, counterGet, counterSet]
  | createNote now nt c lk p i =>
      cases k <;>
        simp [mintedIds, createNote, getNextId, applyOp,
              counterGet_counterSet, counterGet, counterSet]
  | updateProblem now id t d oc sev f st tg => simp [mintedIds]
  | updateIdea now id t p tu v df a r st sc tg => simp [mintedIds]
  | updateNote id nt c lk p i => simp [mintedIds]
  | deleteProblem id => simp [mintedIds]
  | deleteIdea id => simp [mintedIds]
  | deleteNote id => simp [mintedIds]
  | linkProblemToIdea p i =>
      cases k with
      | links =>
          by_cases hdup :
            (s.links.any fun l => l.problem_id == p && l.idea_id == i) = true
          · simp [mintedIds, linkProblemToIdea, hdup]
          · simp [mintedIds, linkProblemToIdea, hdup, getNextId, applyOp,
                  counterGet_counterSet, counterGet, counterSet]
      | problems => simp [mintedIds]
      | ideas => simp [mintedIds]
      | notes => simp [mintedIds]
  | unlinkProblemFromIdea p i => simp [mintedIds]
  | setProblemLinksForIdea i ps =>
      cases k with
      | links =>
          refine ⟨setLinksMintedIds_pairwise ps s.counters, ?_⟩
          intro n hn
          have h2 := setLinksMintedIds_mem ps s.counters n hn
          simp only [applyOp]
          rw [setProblemLinksForIdea_eq]
          simp [counterGet]
          omega
      | problems => simp [mintedIds]
      | ideas => simp [mintedIds]
      | notes => simp [mintedIds]
  | clearAllData => simp [isClearOrImport] at h
  | importAllData d => simp [isClearOrImport] at h

theorem createdIds_bounded (k : CounterKey) (ops : List Op) :
    ∀ (s : StorageData), (∀ op ∈ ops, isClearOrImport op = false) →
      (createdIds k ops s).Pairwise (fun a b => a < b) ∧
      ∀ n ∈ createdIds k ops s, counterGet s.counters k < n := by
  induction ops with
  | nil => intro s _; simp [createdIds]
  | cons op ops ih =>
      intro s h
      have hop : isClearOrImport op = false := h op (by simp)
      have hops : ∀ o ∈ ops, isClearOrImport o = false :=
        fun o ho => h o (by simp [ho])
      have hmono := applyOp_counters_mono op hop s k
      have hmint := mintedIds_bounds k op s hop
      have hrest := ih (applyOp op s) hops
      simp only [createdIds]
      constructor
      · rw [List.pairwise_append]
        refine ⟨hmint.1, hrest.1, ?_⟩
        intro a ha b hb
        have h1 := (hmint.2 a ha).2
        have h2 := hrest.2 b hb
        omega
      · intro n hn
        rcases List.mem_append.mp hn with hn1 | hn2
        · exact (hmint.2 n hn1).1
        · have h3 := hrest.2 n hn2
          omega

theorem linkPairs_append (l1 l2 : List ProblemIdeaLink) :
    linkPairs (l1 ++ l2) = linkPairs l1 ++ linkPairs l2 :=
  List.map_append _ _ _

theorem setLinks_links_decomp (s : StorageData) (i : Nat) (ps : List Nat) :
    (setProblemLinksForIdea s i ps).links =
      s.links.filter (fun l => l.idea_id != i) ++
        newLinkRecords s.counters i ps := by
  rw [setProblemLinksForIdea_eq]

theorem setLinks_counter (s : StorageData) (i : Nat) (ps : List Nat) :
    (setProblemLinksForIdea s i ps).counters.links =
      s.counters.links + ps.length := by
  rw [setProblemLinksForIdea_eq]

theorem filter_eq_of_setLinks (s : StorageData) (i : Nat) (ps : List Nat) :
    (setProblemLinksForIdea s i ps).links.filter (fun l => l.idea_id == i) =
      newLinkRecords s.counters i ps := by
  rw [setLinks_links_decomp, List.filter_append]
  have h1 : (s.links.filter (fun l => l.idea_id != i)).filter
      (fun l => l.idea_id == i) = [] := by
    rw [List.filter_eq_nil_iff]
    intro a ha
    have h2 := (List.mem_filter.mp ha).2
    simp at h2 ⊢
    exact h2
  have h3 : (newLinkRecords s.counters i ps).filter
      (fun l => l.idea_id == i) = newLinkRecords s.counters i ps := by
    rw [List.filter_eq_self]
    intro a ha
    simp [(mem_newLinkRecords i ps s.counters a ha).1]
  rw [h1, h3, List.nil_append]

theorem linkPairs_nodup_setLinks (s : StorageData) (i : Nat) (ps : List Nat)
    (hinv : LinksNodupPairs s) (hps : ps.Nodup) :
    LinksNodupPairs (setProblemLinksForIdea s i ps) := by
  unfold LinksNodupPairs
  rw [setLinks_links_decomp, linkPairs_append, List.nodup_append]
  refine ⟨?_, ?_, ?_⟩
  · exact List.Nodup.sublist (List.Sublist.map _ (List.filter_sublist _)) hinv
  · rw [newLinkRecords_linkPairs]
    exact hps.map (fun a b hab => by simpa using hab)
  · intro x hx1 hx2
    rw [newLinkRecords_linkPairs] at hx2
    rcases List.mem_map.mp hx1 with ⟨l, hl, hlx⟩
    rcases List.mem_map.mp hx2 with ⟨p1, _, hpx⟩
    have hlne := (List.mem_filter.mp hl).2
    simp at hlne
    rw [← hpx] at hlx
    exact hlne (congrArg Prod.snd hlx)

/-! ### Claims -/

/-- Claim C1 (amended): starting from a state with no duplicate
(problem_id, idea_id) pair, every mutation operation of the store other than
importAllData again yields a state with no duplicate pair, provided every
setProblemLinksForIdea call receives a problem_ids list without duplicate
entries (the operation appends one link per list entry without
deduplication). -/
theorem claim1_mutations_preserve_link_pair_invariant (op : Op)
    (s : StorageData) (hinv : LinksNodupPairs s)
    (himp : ∀ d : StorageData, op ≠ Op.importAllData d)
    (hset : ∀ (i : Nat) (ps : List Nat),
      op = Op.setProblemLinksForIdea i ps → ps.Nodup) :
    LinksNodupPairs (applyOp op s) := by
  cases op with
  | createProblem now t d oc sev f st tg => exact hinv
  | createIdea now t p tu v df a r st sc tg => exact hinv
  | createNote now nt c lk p i => exact hinv
  | updateProblem now id t d oc sev f st tg =>
      simp only [applyOp, updateProblem]
      split <;> exact hinv
  | updateIdea now id t p tu v df a r st sc tg =>
      simp only [applyOp, updateIdea]
      split <;> exact hinv
  | updateNote id nt c lk p i =>
      simp only [applyOp, updateNote]
      split <;> exact hinv
  | deleteProblem id =>
      simp only [applyOp, deleteProblem]
      split
      · exact List.Nodup.sublist
          (List.Sublist.map _ (List.filter_sublist _)) hinv
      · exact hinv
  | deleteIdea id =>
      simp only [applyOp, deleteIdea]
      split
      · exact List.Nodup.sublist
          (List.Sublist.map _ (List.filter_sublist _)) hinv
      · exact hinv
  | deleteNote id =>
      simp only [applyOp, deleteNote]
      split <;> exact hinv
  | linkProblemToIdea p i =>
      simp only [applyOp, linkProblemToIdea]
      split
      · exact hinv
      · rename_i hany
        unfold LinksNodupPairs
        rw [linkPairs_append, List.nodup_append]
        refine ⟨hinv, by simp [linkPairs], ?_⟩
        intro x hx1 hx2
        simp [linkPairs] at hx1 hx2
        rcases hx1 with ⟨l, hl, hlx⟩
        simp [List.any_eq_true] at hany
        have h4 := hany l hl
        rw [hx2] at hlx
        have h5 : l.problem_id = p := congrArg Prod.fst hlx
        have h6 : l.idea_id = i := congrArg Prod.snd hlx
        exact h4 h5 h6
  | unlinkProblemFromIdea p i =>
      simp only [applyOp, unlinkProblemFromIdea]
      split
      · exact List.Nodup.sublist
          (List.Sublist.map _ (List.filter_sublist _)) hinv
      · exact hinv
  | setProblemLinksForIdea i ps =>
      exact linkPairs_nodup_setLinks s i ps hinv (hset i ps rfl)
  | clearAllData => exact List.nodup_nil
  | importAllData d => exact absurd rfl (himp d)

/-- Claim C1 as frozen is false on the code: from the empty document (which
satisfies the invariant), setProblemLinksForIdea with the list [1, 1] creates
two links with the same (problem_id, idea_id) pair. -/
theorem claim1_counterexample :
    LinksNodupPairs emptyData ∧
    ¬ LinksNodupPairs
        (applyOp (Op.setProblemLinksForIdea 5 [1, 1]) emptyData) := by
  decide

/-- Witness for claim C1. -/
theorem claim1_witness :
    LinksNodupPairs (applyOp (Op.setProblemLinksForIdea 5 [1, 2]) emptyData) :=
  claim1_mutations_preserve_link_pair_invariant _ _ (by decide)
    (fun d h => Op.noConfusion h)
    (fun i ps h => by injection h with h1 h2; subst h2; decide)

/-- Claim C2 (amended): link creation performs no existence check: when no
identical pair is present, linkProblemToIdea succeeds and appends the link
even though no Problem with that problem_id and no Idea with that idea_id
exists in the store. -/
theorem claim2_link_creation_unchecked (s : StorageData) (p i : Nat)
    (hnodup : ∀ l ∈ s.links, ¬(l.problem_id = p ∧ l.idea_id = i))
    (hnoproblem : ∀ pr ∈ s.problems, pr.id ≠ p)
    (hnoidea : ∀ ir ∈ s.ideas, ir.id ≠ i) :
    (linkProblemToIdea s p i).1 = true ∧
    (linkProblemToIdea s p i).2.links = s.links ++
      [{ id := s.counters.links + 1, problem_id := p, idea_id := i }] := by
  have hany :
      ¬ (s.links.any fun l => l.problem_id == p && l.idea_id == i) = true := by
    simp [List.any_eq_true]
    intro l hl hlp
    exact fun hli => hnodup l hl ⟨hlp, hli⟩
  unfold linkProblemToIdea
  rw [if_neg hany]
  exact ⟨rfl, rfl⟩

/-- Claim C2 as frozen is false on the code: from the empty document, the
store operation linkProblemToIdea(1, 1) returns true and creates a link even
though the problems and ideas collections are both empty. -/
theorem claim2_counterexample :
    (linkProblemToIdea emptyData 1 1).1 = true ∧
    (linkProblemToIdea emptyData 1 1).2.links =
      [{ id := 1, problem_id := 1, idea_id := 1 }] ∧
    emptyData.problems = [] ∧ emptyData.ideas = [] := by
  decide

/-- Witness for claim C2. -/
theorem claim2_witness :
    (linkProblemToIdea emptyData 3 7).1 = true ∧
    (linkProblemToIdea emptyData 3 7).2.links =
      [{ id := 1, problem_id := 3, idea_id := 7 }] :=
  claim2_link_creation_unchecked emptyData 3 7 (by decide) (by decide)
    (by decide)

/-- Claim C3: for an id present in the problems collection, deleteProblem
returns true, removes exactly the problems with that id, removes exactly the
links whose problem_id equals the id, sets problem_id to null on exactly the
notes that referenced it (keeping the notes, other fields unchanged), and
leaves the ideas collection unchanged; for an absent id it returns false and
changes nothing. -/
theorem claim3_deleteProblem_cascade (s : StorageData) (id : Nat) :
    ((∃ p ∈ s.problems, p.id = id) →
      (deleteProblem s id).1 = true ∧
      (∀ p ∈ (deleteProblem s id).2.problems, p.id ≠ id) ∧
      (∀ p ∈ s.problems, p.id ≠ id → p ∈ (deleteProblem s id).2.problems) ∧
      (∀ l ∈ (deleteProblem s id).2.links, l.problem_id ≠ id) ∧
      (∀ l ∈ s.links, l.problem_id ≠ id → l ∈ (deleteProblem s id).2.links) ∧
      ((deleteProblem s id).2.notes = s.notes.map (fun n =>
        if n.problem_id = some id then { n with problem_id := none }
        else n)) ∧
      (deleteProblem s id).2.ideas = s.ideas) ∧
    ((∀ p ∈ s.problems, p.id ≠ id) → deleteProblem s id = (false, s)) := by
  constructor
  · rintro ⟨p0, hp0, hpid⟩
    have hlt : (s.problems.filter (fun p => p.id != id)).length <
        s.problems.length :=
      length_filter_lt s.problems p0 hp0 (by simp [hpid])
    have hd : deleteProblem s id =
        (true, { s with
          problems := s.problems.filter (fun p => p.id != id),
          links := s.links.filter (fun l => l.problem_id != id),
          notes := s.notes.map (fun n =>
            if n.problem_id == some id then { n with problem_id := none }
            else n) }) := by
      simp only [deleteProblem]
      rw [if_pos hlt]
    rw [hd]
    refine ⟨rfl, ?_, ?_, ?_, ?_, ?_, rfl⟩
    · intro p hp
      have h2 := (List.mem_filter.mp hp).2
      simpa using h2
    · intro p hp hne
      exact List.mem_filter.mpr ⟨hp, by simpa using hne⟩
    · intro l hl
      have h2 := (List.mem_filter.mp hl).2
      simpa using h2
    · intro l hl hne
      exact List.mem_filter.mpr ⟨hl, by simpa using hne⟩
    · apply List.map_congr_left
      intro n _
      by_cases hcase : n.problem_id = some id <;> simp [hcase]
  · intro h
    have hfe : s.problems.filter (fun p => p.id != id) = s.problems :=
      List.filter_eq_self.mpr (fun a ha => by simp [h a ha])
    simp only [deleteProblem]
    rw [hfe, if_neg (Nat.lt_irrefl _)]

/-- Witness for claim C3. -/
theorem claim3_witness :
    (deleteProblem sampleState 1).1 = true ∧
    (deleteProblem sampleState 1).2.ideas = sampleState.ideas :=
  ⟨((claim3_deleteProblem_cascade sampleState 1).1 (by decide)).1,
   ((claim3_deleteProblem_cascade sampleState 1).1 (by decide)).2.2.2.2.2.2⟩

/-- Claim C4: running setProblemLinksForIdea twice with the same arguments
leaves as many links for that idea as the first run did, connects the idea to
exactly the set of listed problem ids, and mints link ids all different from
the ones the first run minted. -/
theorem claim4_setLinks_full_replace (s : StorageData) (idea_id : Nat)
    (problem_ids : List Nat) :
    (((setProblemLinksForIdea (setProblemLinksForIdea s idea_id problem_ids)
        idea_id problem_ids).links.filter
          (fun l => l.idea_id == idea_id)).length
      = ((setProblemLinksForIdea s idea_id problem_ids).links.filter
          (fun l => l.idea_id == idea_id)).length) ∧
    (∀ p : Nat,
      (∃ l ∈ (setProblemLinksForIdea (setProblemLinksForIdea s idea_id
          problem_ids) idea_id problem_ids).links,
        l.idea_id = idea_id ∧ l.problem_id = p) ↔ p ∈ problem_ids) ∧
    (∀ l1 ∈ (setProblemLinksForIdea s idea_id problem_ids).links,
      l1.idea_id = idea_id →
      ∀ l2 ∈ (setProblemLinksForIdea (setProblemLinksForIdea s idea_id
          problem_ids) idea_id problem_ids).links,
        l2.idea_id = idea_id → l1.id ≠ l2.id) := by
  refine ⟨?_, ?_, ?_⟩
  · rw [filter_eq_of_setLinks, filter_eq_of_setLinks, newLinkRecords_length,
        newLinkRecords_length]
  · intro p
    constructor
    · rintro ⟨l, hl, hli, hlp⟩
      rw [setLinks_links_decomp] at hl
      rcases List.mem_append.mp hl with h1 | h2
      · have h3 := (List.mem_filter.mp h1).2
        simp [hli] at h3
      · have hm := mem_newLinkRecords idea_id problem_ids _ l h2
        rw [← hlp]
        exact hm.2.1
    · intro hp
      have hmap := newLinkRecords_map_problem idea_id problem_ids
        (setProblemLinksForIdea s idea_id problem_ids).counters
      rw [← hmap] at hp
      rcases List.mem_map.mp hp with ⟨l, hl, hlp⟩
      refine ⟨l, ?_, (mem_newLinkRecords _ _ _ l hl).1, hlp⟩
      rw [setLinks_links_decomp]
      exact List.mem_append_right _ hl
  · intro l1 h1 hi1 l2 h2 hi2
    rw [setLinks_links_decomp] at h1 h2
    rcases List.mem_append.mp h1 with ha | hb
    · have h3 := (List.mem_filter.mp ha).2
      simp [hi1] at h3
    · rcases List.mem_append.mp h2 with hc | hd
      · have h3 := (List.mem_filter.mp hc).2
        simp [hi2] at h3
      · have hm1 := mem_newLinkRecords idea_id problem_ids s.counters l1 hb
        have hm2 := mem_newLinkRecords idea_id problem_ids _ l2 hd
        have hc2 := setLinks_counter s idea_id problem_ids
        rw [hc2] at hm2
        omega

/-- Witness for claim C4. -/
theorem claim4_witness :
    (((setProblemLinksForIdea (setProblemLinksForIdea emptyData 5 [1, 2]) 5
        [1, 2]).links.filter (fun l => l.idea_id == 5)).length
      = ((setProblemLinksForIdea emptyData 5 [1, 2]).links.filter
          (fun l => l.idea_id == 5)).length) ∧
    ({ id := 1, problem_id := 1, idea_id := 5 } : ProblemIdeaLink).id ≠
      ({ id := 3, problem_id := 1, idea_id := 5 } : ProblemIdeaLink).id :=
  ⟨(claim4_setLinks_full_replace emptyData 5 [1, 2]).1,
   (claim4_setLinks_full_replace emptyData 5 [1, 2]).2.2
     { id := 1, problem_id := 1, idea_id := 5 } (by decide) rfl
     { id := 3, problem_id := 1, idea_id := 5 } (by decide) rfl⟩

/-- Claim C5: importAllData applied to exportAllData of the current state
reports success and leaves all four collections and all four counters
identical. -/
theorem claim5_export_import_roundtrip (s : StorageData) :
    (importAllData s (exportAllData s)).1 = true ∧
    (importAllData s (exportAllData s)).2.problems = s.problems ∧
    (importAllData s (exportAllData s)).2.ideas = s.ideas ∧
    (importAllData s (exportAllData s)).2.notes = s.notes ∧
    (importAllData s (exportAllData s)).2.links = s.links ∧
    (importAllData s (exportAllData s)).2.counters = s.counters :=
  ⟨rfl, rfl, rfl, rfl, rfl, rfl⟩

/-- Claim C6: along any call sequence from the empty document that contains
no clearAllData and no importAllData, the ids minted within one collection
(by creates and by link minting) are strictly increasing and never repeat,
even across intervening deletes; and no operation other than clearAllData and
importAllData ever lowers a counter. -/
theorem claim6_create_ids_strictly_increasing (k : CounterKey) (ops : List Op)
    (h : ∀ op ∈ ops, isClearOrImport op = false) :
    (createdIds k ops emptyData).Pairwise (fun a b => a < b) ∧
    (createdIds k ops emptyData).Nodup ∧
    ∀ (op : Op), isClearOrImport op = false →
      ∀ (s : StorageData) (k1 : CounterKey),
        counterGet s.counters k1 ≤ counterGet (applyOp op s).counters k1 := by
  have hb := createdIds_bounded k ops emptyData h
  exact ⟨hb.1, List.Pairwise.imp (fun hab => Nat.ne_of_lt hab) hb.1,
    fun op hop s k1 => applyOp_counters_mono op hop s k1⟩

/-- Claim C6 as frozen quantifies over every operation sequence; it fails on
sequences containing clearAllData, after which counters restart and ids are
reused: create, clear, create mints the problem id 1 twice. -/
theorem claim6_counterexample :
    ¬ (createdIds CounterKey.problems
        [Op.createProblem 1 "A" "" "" 3 .weekly .open "", Op.clearAllData,
         Op.createProblem 2 "B" "" "" 3 .weekly .open ""]
        emptyData).Nodup := by
  decide

/-- Witness for claim C6. -/
theorem claim6_witness :
    (createdIds CounterKey.links demoOps emptyData).Pairwise
      (fun a b => a < b) :=
  (claim6_create_ids_strictly_increasing CounterKey.links demoOps
    (by decide)).1

/-- Claim C7: the three listing operations return exactly the records of
their collection, sorted by created_at descending; three problems created in
order A, B, C are listed as [C, B, A]. -/
theorem claim7_listing_sorted_desc (s : StorageData) :
    ((getAllProblems s).Perm s.problems ∧
      (getAllProblems s).Pairwise (fun a b => b.created_at ≤ a.created_at)) ∧
    ((getAllIdeas s).Perm s.ideas ∧
      (getAllIdeas s).Pairwise (fun a b => b.created_at ≤ a.created_at)) ∧
    ((getAllNotes s).Perm s.notes ∧
      (getAllNotes s).Pairwise (fun a b => b.created_at ≤ a.created_at)) ∧
    (getAllProblems demoABC).map (fun p => p.title) = ["C", "B", "A"] :=
  ⟨⟨List.perm_insertionSort _ _,
    List.Pairwise.imp (fun hab => hab)
      (List.sorted_insertionSort (byKeyDesc Problem.created_at) s.problems)⟩,
   ⟨List.perm_insertionSort _ _,
    List.Pairwise.imp (fun hab => hab)
      (List.sorted_insertionSort (byKeyDesc Idea.created_at) s.ideas)⟩,
   ⟨List.perm_insertionSort _ _,
    List.Pairwise.imp (fun hab => hab)
      (List.sorted_insertionSort (byKeyDesc Note.created_at) s.notes)⟩,
   by decide⟩

/-- Claim C8: linkProblemToIdea returns false and leaves the state unchanged
when an identical pair exists; otherwise it appends exactly one link with a
freshly minted id, increments only the links counter, and returns true. -/
theorem claim8_duplicate_link_suppression (s : StorageData) (p i : Nat) :
    ((∃ l ∈ s.links, l.problem_id = p ∧ l.idea_id = i) →
      linkProblemToIdea s p i = (false, s)) ∧
    ((∀ l ∈ s.links, ¬(l.problem_id = p ∧ l.idea_id = i)) →
      (linkProblemToIdea s p i).1 = true ∧
      (linkProblemToIdea s p i).2.links = s.links ++
        [{ id := s.counters.links + 1, problem_id := p, idea_id := i }] ∧
      (linkProblemToIdea s p i).2.counters.links = s.counters.links + 1 ∧
      (linkProblemToIdea s p i).2.problems = s.problems ∧
      (linkProblemToIdea s p i).2.ideas = s.ideas ∧
      (linkProblemToIdea s p i).2.notes = s.notes) := by
  constructor
  · rintro ⟨l, hl, hlp, hli⟩
    have hany :
        (s.links.any fun l => l.problem_id == p && l.idea_id == i) = true := by
      simp [List.any_eq_true]
      exact ⟨l, hl, hlp, hli⟩
    unfold linkProblemToIdea
    rw [if_pos hany]
  · intro h
    have hany :
        ¬ (s.links.any fun l => l.problem_id == p && l.idea_id == i) = true := by
      simp [List.any_eq_true]
      intro l hl hlp
      exact fun hli => h l hl ⟨hlp, hli⟩
    unfold linkProblemToIdea
    rw [if_neg hany]
    exact ⟨rfl, rfl, rfl, rfl, rfl, rfl⟩

/-- Witness for claim C8. -/
theorem claim8_witness :
    linkProblemToIdea sampleState 1 1 = (false, sampleState) ∧
    (linkProblemToIdea emptyData 2 3).1 = true :=
  ⟨(claim8_duplicate_link_suppression sampleState 1 1).1 (by decide),
   ((claim8_duplicate_link_suppression emptyData 2 3).2 (by decide)).1⟩

/-- Claim C9: lookups on an absent id return null, and update and delete
operations on an absent id return false and leave the whole store state
unchanged, for all three collections. -/
theorem claim9_missing_id_behaviour (s : StorageData) (id : Nat) :
    ((∀ p ∈ s.problems, p.id ≠ id) →
      getProblemById s id = none ∧
      (∀ (now : Nat) (t d oc : String) (sev : Int) (f : Frequency)
          (st : PStatus) (tg : String),
        updateProblem s now id t d oc sev f st tg = (false, s)) ∧
      deleteProblem s id = (false, s)) ∧
    ((∀ i1 ∈ s.ideas, i1.id ≠ id) →
      getIdeaById s id = none ∧
      (∀ (now : Nat) (t p tu v df a r : String) (st : IStatus)
          (sc : Option Int) (tg : String),
        updateIdea s now id t p tu v df a r st sc tg = (false, s)) ∧
      deleteIdea s id = (false, s)) ∧
    ((∀ n ∈ s.notes, n.id ≠ id) →
      getNoteById s id = none ∧
      (∀ (nt : NoteType) (c lk : String) (pid iid : Option Nat),
        updateNote s id nt c lk pid iid = (false, s)) ∧
      deleteNote s id = (false, s)) := by
  refine ⟨fun h => ⟨?_, ?_, ?_⟩, fun h => ⟨?_, ?_, ?_⟩, fun h => ⟨?_, ?_, ?_⟩⟩
  · exact List.find?_eq_none.mpr (fun x hx => by simp [h x hx])
  · intro now t d oc sev f st tg
    have hrf := replaceFirst_eq_none
      (f := fun p => p.id == id)
      (g := fun (p : Problem) =>
        { p with
            title := t, description := d, observed_context := oc,
            severity := sev, frequency := f, status := st, tags := tg,
            updated_at := now })
      s.problems (fun x hx => by simp [h x hx])
    simp only [updateProblem, hrf]
  · have hfe : s.problems.filter (fun p => p.id != id) = s.problems :=
      List.filter_eq_self.mpr (fun a ha => by simp [h a ha])
    simp only [deleteProblem]
    rw [hfe, if_neg (Nat.lt_irrefl _)]
  · exact List.find?_eq_none.mpr (fun x hx => by simp [h x hx])
  · intro now t p tu v df a r st sc tg
    have hrf := replaceFirst_eq_none
      (f := fun i1 => i1.id == id)
      (g := fun (i1 : Idea) =>
        { i1 with
            title := t, pitch := p, target_user := tu, value_prop := v,
            differentiation := df, assumptions := a, risks := r, status := st,
            score := sc, tags := tg, updated_at := now })
      s.ideas (fun x hx => by simp [h x hx])
    simp only [updateIdea, hrf]
  · have hfe : s.ideas.filter (fun i1 => i1.id != id) = s.ideas :=
      List.filter_eq_self.mpr (fun a ha => by simp [h a ha])
    simp only [deleteIdea]
    rw [hfe, if_neg (Nat.lt_irrefl _)]
  · exact List.find?_eq_none.mpr (fun x hx => by simp [h x hx])
  · intro nt c lk pid iid
    have hrf := replaceFirst_eq_none
      (f := fun n => n.id == id)
      (g := fun (n : Note) =>
        { n with
            note_type := nt, content := c, links := lk, problem_id := pid,
            idea_id := iid })
      s.notes (fun x hx => by simp [h x hx])
    simp only [updateNote, hrf]
  · have hfe : s.notes.filter (fun n => n.id != id) = s.notes :=
      List.filter_eq_self.mpr (fun a ha => by simp [h a ha])
    simp only [deleteNote]
    rw [hfe, if_neg (Nat.lt_irrefl _)]

/-- Witness for claim C9. -/
theorem claim9_witness :
    getProblemById emptyData 1 = none ∧
    deleteNote emptyData 1 = (false, emptyData) :=
  ⟨((claim9_missing_id_behaviour emptyData 1).1 (by decide)).1,
   ((claim9_missing_id_behaviour emptyData 1).2.2 (by decide)).2.2⟩

/-- Claim C10: when the ids inside the ideas and problems collections are
unique, getIdeasForProblem and getProblemsForIdea return each linked record
at most once, even when several link records carry the same
(problem_id, idea_id) pair. -/
theorem claim10_relational_queries_nodup (s : StorageData) (pid iid : Nat)
    (hI : (s.ideas.map Idea.id).Nodup)
    (hP : (s.problems.map Problem.id).Nodup) :
    ((getIdeasForProblem s pid).map Idea.id).Nodup ∧
    ((getProblemsForIdea s iid).map Problem.id).Nodup :=
  ⟨List.Nodup.sublist (List.Sublist.map _ (List.filter_sublist _)) hI,
   List.Nodup.sublist (List.Sublist.map _ (List.filter_sublist _)) hP⟩

/-- Witness for claim C10, run on a store whose link table holds the pair
(1, 1) twice. -/
theorem claim10_witness :
    ((getIdeasForProblem dupLinkState 1).map Idea.id).Nodup ∧
    ((getProblemsForIdea dupLinkState 1).map Problem.id).Nodup :=
  claim10_relational_queries_nodup dupLinkState 1 1 (by decide) (by decide)

end IdeaTracker
